import Mathlib

/-!
Verification of the Ravenna FPGA network driver's PTP timestamp
reconciliation engine (src/modules/net/timestamp.c) against its
natural-language specification.

The C file is shallowly embedded below.  Machine integers are modelled as
`Nat` with explicit `% 2^w` where wrap-around matters; the two ring sizes
`RA_NET_TX_TS_LIST_SIZE` and `RA_NET_TX_SKB_LIST_SIZE` and the record
layout live in `main.h`, which is not part of the tree, so the sizes are
parameters (`tsSZ`, `skbSZ`) and the record layout follows the spec's data
model.  Side effects on external collaborators (freeing an skb, enabling or
disabling the interrupt source, stopping the transmit queue, ...) are
recorded as an explicit event trace.
-/

/-- Observable side effects on the external collaborators (network stack,
interrupt controller, work scheduler, hardware registers). `readSkb` /
`freeSkb` carry the ring slot whose stored handle is read / freed. -/
inductive Ev where
  | readSkb (slot : Nat)
  | freeSkb (slot : Nat)
  | tstampTx (id : Nat) (ns : Int)
  | disableIrq
  | enableIrq
  | scheduleWork
  | stopQueue
  | writeHw (bit : Bool)
  | startQueue
  | cancelWork
  | drainFifo
deriving DecidableEq, Repr

/-- `struct ptp_packet_fpga_timestamp`.  The struct itself is declared in
`main.h`, which is absent from the tree; the fields are the ones the C file
uses (`start_of_ts`, `seconds_hi`, `seconds`, `nanoseconds`,
`sequence_id`), with widths from the spec's data model (u32 marker, u16
seconds_hi, u32 seconds, u32 nanoseconds, u16 sequence_id). -/
structure TsRec where
  start_of_ts : Nat
  seconds_hi : Nat
  seconds : Nat
  nanoseconds : Nat
  sequence_id : Nat
deriving DecidableEq, Repr

/-- A queued outgoing packet (`struct sk_buff`) as the reconciliation code
sees it: an opaque handle identity plus the PTP sequence id extracted from
its PTPv2-over-IPv4 header; `none` models a packet too short to contain a
sequence id (the length check at timestamp.c:93). -/
structure Skb where
  id : Nat
  seq : Option Nat
deriving DecidableEq, Repr

/-- `NSEC_PER_SEC`. -/
def NSEC_PER_SEC : Int := 1000000000

/-- `(s64)ts->seconds * NSEC_PER_SEC + ts->nanoseconds` (timestamp.c:108
and timestamp.c:298).  With `seconds` and `nanoseconds` below `2^32` the
value fits in a signed 64-bit integer, so plain `Int` arithmetic is the
exact semantics of the C expression. -/
def tsToNs (ts : TsRec) : Int :=
  (ts.seconds : Int) * NSEC_PER_SEC + (ts.nanoseconds : Int)

/-- `ra_net_stamp_tx_skb` (timestamp.c:73-132), the classification of one
(timestamp, pending packet) pair.  Returns
`(ts_consumed, skb_consumed, events)`; in the caller (`ra_net_tx_ts_work`)
`ts_consumed = true` means the timestamp ring's read index stays advanced
past this record, `skb_consumed = true` means the packet is freed and the
packet ring's read index stays advanced.  The C defaults are
`*ts_consumed = false; *skb_consumed = true;` (lines 84-85); the equal
branch calls `skb_tstamp_tx` and sets `ts_consumed` (lines 100-115); the
greater branch sets `ts_consumed = true, skb_consumed = false`
(lines 117-126); the less-than branch falls through with the defaults. -/
def ra_net_stamp_tx_skb (ts : TsRec) (skb : Skb) : Bool × Bool × List Ev :=
  match skb.seq with
  | none => (false, true, [])
  | some pseq =>
    if ts.sequence_id = pseq then
      (true, true, [Ev.tstampTx skb.id (tsToNs ts)])
    else if pseq < ts.sequence_id then
      (true, false, [])
    else
      (false, true, [])

/-- The shared `struct ra_net_tx_timestamps` state (declared in the absent
`main.h`; every field below is one the C file reads or writes):
the two ring index pairs, the two ring stores, the `reenable_irq` flag and
the `enable` flag.  `rx_ts_enable` lives in `ra_net_priv` directly and is
modelled separately with the configuration state. -/
structure TxTs where
  skb_wr : Nat
  skb_rd : Nat
  ts_wr : Nat
  ts_rd : Nat
  skb_ptr : Nat → Skb
  fpga_ts : Nat → TsRec
  reenable_irq : Bool
  enable : Bool

/-- The index of the first FIFO word within `fuel` reads whose high half
equals the start-of-timestamp marker, i.e. the iteration at which the scan
loop at timestamp.c:45-50 breaks; `none` while no such word has been
read.  (`sot >> 16 == RA_NET_TX_TIMESTAMP_START_OF_TS`.) -/
def scanFind (SOT : Nat) (fifo : Nat → Nat) : Nat → Option Nat
  | 0 => none
  | fuel + 1 =>
    match scanFind SOT fifo fuel with
    | some i => some i
    | none => if fifo fuel / 2 ^ 16 = SOT then some fuel else none

/-- The value of the `u32 ctr` loop counter when the scan breaks after the
read at index `i`: `ctr` starts at `recWords` and is decremented once per
read with unsigned 32-bit wrap-around, so it never satisfies the exit test
`ctr >= 0` being false. -/
def ctrAt (recWords i : Nat) : Nat :=
  (recWords + (2 ^ 32 - i % 2 ^ 32)) % 2 ^ 32

/-- The record assembled from the FIFO stream once the marker word is found
at index `i`.  `seconds_hi := sot & 0xffff` is timestamp.c:62; the burst
read of the remaining bytes (timestamp.c:65-67) targets a struct declared
in the absent `main.h`.  Modelled from the spec: the record body after the
marker word is the 48-bit seconds value (high half already in the marker
word), the 32-bit nanoseconds and the 16-bit sequence id, taken here from
the subsequent FIFO words.  No theorem below depends on this layout. -/
def recOfStream (SOT : Nat) (fifo : Nat → Nat) (i : Nat) : TsRec :=
  { start_of_ts := SOT
    seconds_hi := fifo i % 2 ^ 16
    seconds := fifo (i + 1) % 2 ^ 32
    nanoseconds := fifo (i + 2) % 2 ^ 32
    sequence_id := fifo (i + 3) % 2 ^ 16 }

/-- `ra_net_tx_ts_irq` (timestamp.c:10-71).  `tsSZ` is
`RA_NET_TX_TS_LIST_SIZE`, `recWords` is
`sizeof(struct ptp_packet_fpga_timestamp) / sizeof(u32)`, `SOT` is
`RA_NET_TX_TIMESTAMP_START_OF_TS` (all from the absent `main.h`), and
`fifo` is the sequence of values produced by successive reads of
`RA_NET_TX_TIMESTAMP_FIFO`.  `fuel` bounds how many scan iterations are
evaluated: `none` means the scan loop has not exited within `fuel` reads
(the C loop has no other exit, since `ctr` is unsigned and `ctr >= 0`
always holds).  On the ring-full path the handler sets `reenable_irq`,
disables the interrupt source and returns; otherwise it stores the
incremented write index (timestamp.c:38) before scanning, returns early
when the break left `ctr == 0`, and otherwise fills the claimed slot and
schedules the worker. -/
def ra_net_tx_ts_irq (tsSZ recWords SOT : Nat) (s : TxTs) (fifo : Nat → Nat)
    (fuel : Nat) : Option (TxTs × List Ev) :=
  let wr1 := (s.ts_wr + 1) % tsSZ
  if wr1 = s.ts_rd then
    some ({ s with reenable_irq := true }, [Ev.disableIrq])
  else
    let s1 := { s with ts_wr := wr1 }
    match scanFind SOT fifo fuel with
    | none => none
    | some i =>
      if ctrAt recWords i = 0 then
        some (s1, [])
      else
        some ({ s1 with
                  fpga_ts := fun j =>
                    if j = wr1 then recOfStream SOT fifo i else s1.fpga_ts j },
              [Ev.scheduleWork])

/-- A non-full ring state used as the starting point for the interrupt
producer counterexamples: one timestamp ring slot claimed would give
`ts_wr = 1 ≠ 2 = ts_rd`. -/
def irqTestState : TxTs :=
  { skb_wr := 0
    skb_rd := 0
    ts_wr := 0
    ts_rd := 2
    skb_ptr := fun _ => { id := 0, seq := none }
    fpga_ts := fun _ => { start_of_ts := 0, seconds_hi := 0, seconds := 0,
                          nanoseconds := 0, sequence_id := 0 }
    reenable_irq := false
    enable := true }

theorem scanFind_none_of_no_marker (SOT : Nat) (fifo : Nat → Nat)
    (h : ∀ i, fifo i / 2 ^ 16 ≠ SOT) :
    ∀ fuel, scanFind SOT fifo fuel = none := by
  intro fuel
  induction fuel with
  | zero => rfl
  | succ n ih =>
    unfold scanFind
    rw [ih]
    show (if fifo n / 2 ^ 16 = SOT then some n else none) = none
    exact if_neg (h n)

/-- C2: the claim states that the interrupt producer's marker scan
terminates for every input because it is bounded by the record size in
words.  In the code `ctr` is a `u32`, so the loop condition `ctr >= 0`
never fails and the only exit is finding the marker: on a FIFO stream none
of whose words carries the marker in its high half (here the constant-0
stream, marker value 1, record size 4 words, invoked on a non-full ring)
the handler has not returned after any number `fuel` of scan iterations. -/
theorem irq_scan_diverges_without_marker :
    ∀ fuel : Nat,
      ra_net_tx_ts_irq 4 4 1 irqTestState (fun _ => 0) fuel = none := by
  intro fuel
  unfold ra_net_tx_ts_irq
  rw [scanFind_none_of_no_marker 1 (fun _ => 0) (fun i => by norm_num) fuel]
  rfl

/-- The FIFO stream for the C3 counterexample: the start-of-timestamp
marker (value 1, so the word is `1 <<< 16`) appears only at read index 4,
i.e. exactly when the scan counter `ctr` has reached 0. -/
def lateMarkerFifo : Nat → Nat := fun i => if i = 4 then 2 ^ 16 else 0

/-- C3: the claim states that when the scan fails the handler aborts with
the Timestamp Ring's write index unchanged, claiming no ring slot.  The
code stores the incremented write index at timestamp.c:38 *before*
scanning, and the abort path at timestamp.c:55-58 (`ctr == 0`, the "no
start of timestamp found" error) returns without rolling it back: on a
stream whose marker word arrives only at scan position 4 (`ctr == 0`,
record size 4 words) the handler takes the abort path (no record stored,
no work scheduled) yet leaves `ts_wr = 1` where it was `0` before the
invocation. -/
theorem irq_abort_leaves_write_index_advanced :
    (ra_net_tx_ts_irq 4 4 1 irqTestState lateMarkerFifo 10).map
        (fun r => (r.1.ts_wr, r.2)) = some (1, []) ∧
    irqTestState.ts_wr = 0 := by
  constructor
  · rfl
  · rfl

/-- One body execution of the `do { ... } while` loop of
`ra_net_tx_ts_work` (timestamp.c:154-181), on the local `ts_rd_idx` /
`skb_rd_idx` copies: advance both indices, read the packet slot and the
timestamp slot at the advanced positions, classify the pair with
`ra_net_stamp_tx_skb`, free the packet when `skb_consumed` and otherwise
step the packet index back (`+= SIZE-1; %= SIZE`), and step the timestamp
index back when `!ts_consumed`.  Returns the two updated indices and the
emitted events. -/
def workStep (tsSZ skbSZ : Nat) (fpga : Nat → TsRec) (ptr : Nat → Skb)
    (ts_rd skb_rd : Nat) : Nat × Nat × List Ev :=
  let q1 := (ts_rd + 1) % tsSZ
  let p1 := (skb_rd + 1) % skbSZ
  let skb := ptr p1
  let ts := fpga q1
  let r := ra_net_stamp_tx_skb ts skb
  let evs := Ev.readSkb p1 :: r.2.2 ++ (if r.2.1 then [Ev.freeSkb p1] else [])
  let q2 := if r.1 then q1 else (q1 + (tsSZ - 1)) % tsSZ
  let p2 := if r.2.1 then p1 else (p1 + (skbSZ - 1)) % skbSZ
  (q2, p2, evs)

/-- The `do { ... } while ((ts_rd_idx != ts_wr_idx) && (skb_rd_idx !=
skb_wr_idx))` loop (timestamp.c:154-182) as a fuel-indexed recursion: run
the body once, then repeat while both rings are non-empty.  A safety
property of the emitted events is unaffected by running out of fuel; every
concrete run below exits through the loop condition well within its
fuel. -/
def workLoop (tsSZ skbSZ : Nat) (fpga : Nat → TsRec) (ptr : Nat → Skb)
    (ts_wr skb_wr : Nat) : Nat → Nat → Nat → Nat × Nat × List Ev
  | 0, ts_rd, skb_rd => (ts_rd, skb_rd, [])
  | fuel + 1, ts_rd, skb_rd =>
    let st := workStep tsSZ skbSZ fpga ptr ts_rd skb_rd
    if st.1 ≠ ts_wr ∧ st.2.1 ≠ skb_wr then
      let rest := workLoop tsSZ skbSZ fpga ptr ts_wr skb_wr fuel st.1 st.2.1
      (rest.1, rest.2.1, st.2.2 ++ rest.2.2)
    else
      (st.1, st.2.1, st.2.2)

/-- `ra_net_tx_ts_work` (timestamp.c:134-195).  If the timestamp ring is
empty nothing is done (`goto out`); otherwise the loop runs and the final
local indices are stored back.  After releasing the lock the function
checks `reenable_irq` and, when set, clears it and re-enables the interrupt
source — regardless of how much ring space the loop freed. -/
def ra_net_tx_ts_work (tsSZ skbSZ : Nat) (s : TxTs) : TxTs × List Ev :=
  let core :=
    if s.ts_wr = s.ts_rd then (s, ([] : List Ev))
    else
      let r := workLoop tsSZ skbSZ s.fpga_ts s.skb_ptr s.ts_wr s.skb_wr
        (tsSZ + skbSZ + 2) s.ts_rd s.skb_rd
      ({ s with ts_rd := r.1, skb_rd := r.2.1 }, r.2.2)
  if core.1.reenable_irq then
    ({ core.1 with reenable_irq := false }, core.2 ++ [Ev.enableIrq])
  else core

/-- Worker state for the C4 counterexample: the Pending-Packet Ring is
empty (`skb_rd = skb_wr = 0`) while one timestamp (sequence id 50) is
pending; every packet slot holds a handle numbered `100 + slot` whose
packet carries sequence id 50. -/
def emptyPendingState : TxTs :=
  { skb_wr := 0
    skb_rd := 0
    ts_wr := 1
    ts_rd := 0
    skb_ptr := fun i => { id := 100 + i, seq := some 50 }
    fpga_ts := fun _ => { start_of_ts := 0, seconds_hi := 0, seconds := 0,
                          nanoseconds := 0, sequence_id := 50 }
    reenable_irq := false
    enable := true }

/-- C4: the claim states that no operation reads a packet handle from a
ring slot past the read region, and in particular that the reconciliation
worker never reads a packet slot when the Pending-Packet Ring is empty.
The worker's entry guard (timestamp.c:151) only tests the timestamp ring,
and the `do/while` loop tests ring emptiness only *after* its body: invoked
on `emptyPendingState` (pending ring empty, one pending timestamp, ring
sizes 4) the worker advances `skb_rd` past `skb_wr`, reads the dead packet
slot 1 and even frees the handle stored there. -/
theorem work_reads_dead_slot_on_empty_pending_ring :
    (ra_net_tx_ts_work 4 4 emptyPendingState).2
        = [Ev.readSkb 1, Ev.tstampTx 101 0, Ev.freeSkb 1] ∧
    emptyPendingState.skb_rd = emptyPendingState.skb_wr := by
  constructor
  · rfl
  · rfl

/-- C1: the claim states the spec's §4.3 classification: timestamp sequence
id greater than the packet's should consume the packet (released without a
timestamp) and retain the timestamp, and less-than should consume the
timestamp and retain the packet.  The code does the exact opposite in both
mismatch branches: at `ts.sequence_id = 2` against a packet with sequence
id `1` it returns `ts_consumed = true, skb_consumed = false` (timestamp
discarded, packet retained), and at `ts.sequence_id = 1` against a packet
with sequence id `2` it returns `ts_consumed = false, skb_consumed = true`
(packet freed, timestamp retained) — contradicting the code's own dev_dbg
messages "discard packet" / "discard timestamp". -/
theorem stamp_tx_skb_mismatch_consumes_wrong_entry :
    ra_net_stamp_tx_skb
        { start_of_ts := 0, seconds_hi := 0, seconds := 0, nanoseconds := 0,
          sequence_id := 2 }
        { id := 7, seq := some 1 }
      = (true, false, []) ∧
    ra_net_stamp_tx_skb
        { start_of_ts := 0, seconds_hi := 0, seconds := 0, nanoseconds := 0,
          sequence_id := 1 }
        { id := 7, seq := some 2 }
      = (false, true, []) := by
  decide

/-- The skb release loop of `ra_net_flush_tx_ts` (timestamp.c:219-224):
while the Pending-Packet Ring is non-empty, free `skb_ptr[rd_idx]` — where
`rd_idx` is the local `int rd_idx` declared at timestamp.c:200 and never
assigned, modelled as the arbitrary fixed value `junk` — and advance
`skb_rd_idx` modulo the ring size.  The fuel `skbSZ` is enough for every
starting pair of in-range indices. -/
def flushLoop (skbSZ junk : Nat) : Nat → Nat → Nat → Nat × List Ev
  | 0, rd, _ => (rd, [])
  | fuel + 1, rd, wr =>
    if rd = wr then (rd, [])
    else
      let rest := flushLoop skbSZ junk fuel ((rd + 1) % skbSZ) wr
      (rest.1, Ev.freeSkb junk :: rest.2)

/-- `ra_net_flush_tx_ts` (timestamp.c:197-233): cancel the deferred work,
drain the hardware FIFO until the "timestamp available" interrupt condition
clears (reads of external hardware state only, abstracted as one event),
run the skb release loop, and zero all four ring indices. -/
def ra_net_flush_tx_ts (skbSZ junk : Nat) (s : TxTs) : TxTs × List Ev :=
  let r := flushLoop skbSZ junk skbSZ s.skb_rd s.skb_wr
  ({ s with skb_rd := 0, skb_wr := 0, ts_rd := 0, ts_wr := 0 },
   Ev.cancelWork :: Ev.drainFifo :: r.2)

/-- Flush state for the C5 counterexample: exactly one still-pending packet
handle, stored at slot 1 (the ring stores at the pre-incremented write
index, so with `skb_rd = 0, skb_wr = 1` the single live entry is slot 1). -/
def onePendingState : TxTs :=
  { skb_wr := 1
    skb_rd := 0
    ts_wr := 0
    ts_rd := 0
    skb_ptr := fun i => { id := 100 + i, seq := some 10 }
    fpga_ts := fun _ => { start_of_ts := 0, seconds_hi := 0, seconds := 0,
                          nanoseconds := 0, sequence_id := 0 }
    reenable_irq := false
    enable := true }

/-- C5: the claim states that Flush/Drain releases every still-pending
packet handle exactly once and then zeroes both rings' indices.  The free
loop at timestamp.c:220 frees `skb_ptr[rd_idx]` with `rd_idx` declared but
never initialized (timestamp.c:200), so it frees whatever slot the garbage
value denotes instead of the live slots: on `onePendingState` (one live
handle at slot 1, garbage value 0) the only release is of stale slot 0 and
the pending handle at slot 1 is never freed; the index reset to zero does
hold. -/
theorem flush_frees_junk_slot_not_pending_handle :
    (ra_net_flush_tx_ts 4 0 onePendingState).2
        = [Ev.cancelWork, Ev.drainFifo, Ev.freeSkb 0] ∧
    Ev.freeSkb 1 ∉ (ra_net_flush_tx_ts 4 0 onePendingState).2 ∧
    (ra_net_flush_tx_ts 4 0 onePendingState).1.skb_rd = 0 ∧
    (ra_net_flush_tx_ts 4 0 onePendingState).1.skb_wr = 0 ∧
    (ra_net_flush_tx_ts 4 0 onePendingState).1.ts_rd = 0 ∧
    (ra_net_flush_tx_ts 4 0 onePendingState).1.ts_wr = 0 := by
  refine ⟨rfl, ?_, rfl, rfl, rfl, rfl⟩
  decide

/-- `ra_net_tx_ts_send` (timestamp.c:235-280).  `hwts` is
`skb_shinfo(skb)->tx_flags & SKBTX_HW_TSTAMP`.  Returns the C function's
boolean (`true`: the caller completes the packet normally; `false`: the
packet was queued for timestamping), the new state and the events.  The
write index is advanced first; if it collides with the read index the read
index is advanced and the handle at the *new* read position — the oldest
live entry — is freed, then the new packet is stored at the claimed
slot. -/
def ra_net_tx_ts_send (skbSZ : Nat) (s : TxTs) (skb : Skb) (hwts : Bool) :
    Bool × TxTs × List Ev :=
  if s.enable = false then (true, s, [])
  else if hwts then
    let wr1 := (s.skb_wr + 1) % skbSZ
    let er :=
      if wr1 = s.skb_rd then
        ({ s with skb_rd := (s.skb_rd + 1) % skbSZ },
         [Ev.freeSkb ((s.skb_rd + 1) % skbSZ)])
      else (s, ([] : List Ev))
    (false,
     { er.1 with
         skb_wr := wr1
         skb_ptr := fun j => if j = wr1 then skb else er.1.skb_ptr j },
     er.2)
  else (true, s, [])

/-- The number of live entries of a ring with indices `rd`, `wr` (both
below `sz`): `wr == rd` is empty, entries live at slots `rd+1 .. wr` in
ring order. -/
def ringOcc (sz rd wr : Nat) : Nat := (wr + sz - rd) % sz

theorem mod_two_blocks (a n : Nat) (h1 : n ≤ a) (h2 : a < 2 * n) :
    a % n = a - n := by
  rw [Nat.mod_eq_sub_mod h1, Nat.mod_eq_of_lt (by omega)]

/-- A ring at maximal occupancy `sz - 1` has `(wr + 1) % sz = rd`, the
collision the submission gate tests for. -/
theorem ringOcc_full_iff_collision (sz rd wr : Nat) (hsz : 0 < sz)
    (hrd : rd < sz) (hwr : wr < sz) (hfull : ringOcc sz rd wr = sz - 1) :
    (wr + 1) % sz = rd := by
  unfold ringOcc at hfull
  rcases Nat.lt_or_ge wr rd with hlt | hge
  · rw [Nat.mod_eq_of_lt (by omega)] at hfull
    have hr : rd = wr + 1 := by omega
    rw [hr, Nat.mod_eq_of_lt (by omega)]
  · rw [mod_two_blocks _ _ (by omega) (by omega)] at hfull
    have hw : wr = sz - 1 := by omega
    have hr : rd = 0 := by omega
    have hs : wr + 1 = sz := by omega
    rw [hs, hr, Nat.mod_self]

/-- After an overflow eviction the occupancy is back at `sz - 1`: the new
write index equals the old read index and the new read index is one past
it. -/
theorem ringOcc_after_evict (sz rd : Nat) (hsz : 0 < sz) (hrd : rd < sz) :
    ringOcc sz ((rd + 1) % sz) rd = sz - 1 := by
  unfold ringOcc
  by_cases h : rd + 1 = sz
  · rw [h, Nat.mod_self, Nat.sub_zero, Nat.add_mod_right,
        Nat.mod_eq_of_lt hrd]
    omega
  · have h1 : (rd + 1) % sz = rd + 1 := Nat.mod_eq_of_lt (by omega)
    rw [h1]
    have h2 : rd + sz - (rd + 1) = sz - 1 := by omega
    rw [h2, Nat.mod_eq_of_lt (by omega)]

/-- Stepping an in-range index by one modulo `sz ≥ 2` moves it. -/
theorem succ_mod_ne_self (sz a : Nat) (hsz : 2 ≤ sz) (ha : a < sz) :
    (a + 1) % sz ≠ a := by
  by_cases h : a + 1 = sz
  · rw [h, Nat.mod_self]
    omega
  · rw [Nat.mod_eq_of_lt (by omega)]
    omega

/-- With `sz ≥ 3`, the slot one past the old read index of a full ring
(i.e. two past the write index) differs from the write index. -/
theorem evicted_ne_newest (sz wr : Nat) (hsz : 3 ≤ sz) (hwr : wr < sz) :
    ((wr + 1) % sz + 1) % sz ≠ wr := by
  by_cases h1 : wr + 1 = sz
  · rw [h1, Nat.mod_self, Nat.mod_eq_of_lt (by omega)]
    omega
  · rw [Nat.mod_eq_of_lt (show wr + 1 < sz by omega)]
    by_cases h2 : wr + 2 = sz
    · rw [show wr + 1 + 1 = sz from by omega, Nat.mod_self]
      omega
    · rw [Nat.mod_eq_of_lt (by omega)]
      omega

/-- C7: with tx timestamping enabled and a packet flagged for a hardware
timestamp, submitting into a Pending-Packet Ring already holding its
maximum `sz - 1` live entries (i) reports the packet as consumed
(`return false`), (ii) frees exactly the handle in the oldest live slot
`(skb_rd + 1) % sz` and nothing else, (iii) leaves occupancy at `sz - 1`,
(iv) stores the new packet at the claimed slot `(skb_wr + 1) % sz` leaving
every other slot unchanged, and (v) the evicted slot is neither the slot of
the newest pre-existing entry (`skb_wr`) nor the slot the new packet goes
to — oldest-first eviction, never newest. -/
theorem tx_ts_send_overflow_evicts_oldest (sz : Nat) (s : TxTs) (skb : Skb)
    (hsz : 3 ≤ sz) (hrd : s.skb_rd < sz) (hwr : s.skb_wr < sz)
    (hen : s.enable = true)
    (hfull : ringOcc sz s.skb_rd s.skb_wr = sz - 1) :
    (ra_net_tx_ts_send sz s skb true).1 = false ∧
    (ra_net_tx_ts_send sz s skb true).2.2
        = [Ev.freeSkb ((s.skb_rd + 1) % sz)] ∧
    ringOcc sz (ra_net_tx_ts_send sz s skb true).2.1.skb_rd
        (ra_net_tx_ts_send sz s skb true).2.1.skb_wr = sz - 1 ∧
    (ra_net_tx_ts_send sz s skb true).2.1.skb_ptr ((s.skb_wr + 1) % sz)
        = skb ∧
    (∀ j, j ≠ (s.skb_wr + 1) % sz →
        (ra_net_tx_ts_send sz s skb true).2.1.skb_ptr j = s.skb_ptr j) ∧
    (s.skb_rd + 1) % sz ≠ s.skb_wr ∧
    (s.skb_rd + 1) % sz ≠ (s.skb_wr + 1) % sz := by
  have hcol := ringOcc_full_iff_collision sz s.skb_rd s.skb_wr (by omega)
    hrd hwr hfull
  have hev : ra_net_tx_ts_send sz s skb true
      = (false,
         { s with
             skb_rd := (s.skb_rd + 1) % sz
             skb_wr := (s.skb_wr + 1) % sz
             skb_ptr := fun j =>
               if j = (s.skb_wr + 1) % sz then skb else s.skb_ptr j },
         [Ev.freeSkb ((s.skb_rd + 1) % sz)]) := by
    simp only [ra_net_tx_ts_send, hen, hcol]
    simp
  rw [hev]
  refine ⟨rfl, rfl, ?_, ?_, ?_, ?_, ?_⟩
  · show ringOcc sz ((s.skb_rd + 1) % sz) ((s.skb_wr + 1) % sz) = sz - 1
    rw [hcol]
    exact ringOcc_after_evict sz s.skb_rd (by omega) hrd
  · show (if (s.skb_wr + 1) % sz = (s.skb_wr + 1) % sz then skb
          else s.skb_ptr ((s.skb_wr + 1) % sz)) = skb
    rw [if_pos rfl]
  · intro j hj
    show (if j = (s.skb_wr + 1) % sz then skb else s.skb_ptr j) = s.skb_ptr j
    rw [if_neg hj]
  · rw [← hcol]
    exact evicted_ne_newest sz s.skb_wr hsz hwr
  · rw [← hcol]
    exact succ_mod_ne_self sz ((s.skb_wr + 1) % sz) (by omega)
      (Nat.mod_lt _ (by omega))

/-- Concrete full-ring submission state for the C7 witness: ring size 4,
`skb_rd = 0`, `skb_wr = 3`, occupancy 3 = 4 - 1 (slots 1, 2, 3 live). -/
def fullPendingState : TxTs :=
  { skb_wr := 3
    skb_rd := 0
    ts_wr := 0
    ts_rd := 0
    skb_ptr := fun i => { id := 100 + i, seq := some 10 }
    fpga_ts := fun _ => { start_of_ts := 0, seconds_hi := 0, seconds := 0,
                          nanoseconds := 0, sequence_id := 0 }
    reenable_irq := false
    enable := true }

/-- C7 witness: the overflow-eviction theorem applied to the concrete full
ring `fullPendingState` and a new packet. -/
theorem tx_ts_send_overflow_evicts_oldest_witness :
    (ra_net_tx_ts_send 4 fullPendingState { id := 9, seq := some 11 } true).1
        = false ∧
    (ra_net_tx_ts_send 4 fullPendingState { id := 9, seq := some 11 }
        true).2.2 = [Ev.freeSkb ((fullPendingState.skb_rd + 1) % 4)] ∧
    ringOcc 4 (ra_net_tx_ts_send 4 fullPendingState
        { id := 9, seq := some 11 } true).2.1.skb_rd
        (ra_net_tx_ts_send 4 fullPendingState
        { id := 9, seq := some 11 } true).2.1.skb_wr = 4 - 1 ∧
    (ra_net_tx_ts_send 4 fullPendingState { id := 9, seq := some 11 }
        true).2.1.skb_ptr ((fullPendingState.skb_wr + 1) % 4)
        = { id := 9, seq := some 11 } ∧
    (∀ j, j ≠ (fullPendingState.skb_wr + 1) % 4 →
        (ra_net_tx_ts_send 4 fullPendingState { id := 9, seq := some 11 }
            true).2.1.skb_ptr j = fullPendingState.skb_ptr j) ∧
    (fullPendingState.skb_rd + 1) % 4 ≠ fullPendingState.skb_wr ∧
    (fullPendingState.skb_rd + 1) % 4 ≠ (fullPendingState.skb_wr + 1) % 4 :=
  tx_ts_send_overflow_evicts_oldest 4 fullPendingState
    { id := 9, seq := some 11 } (by decide) (by decide) (by decide)
    (by decide) (by decide)

/-- State for the C8 counterexample and witness: the Timestamp Ring is full
(`ts_rd = 0`, `ts_wr = 3`, size 4, so the next claim would collide),
`reenable_irq` is set, and the Pending-Packet Ring holds a single packet
whose sequence id 100 exceeds every pending timestamp's sequence id 5, so
the worker's one iteration frees the packet, steps the timestamp index
back, and exits with the Timestamp Ring untouched — still full. -/
def fullRingState : TxTs :=
  { skb_wr := 1
    skb_rd := 0
    ts_wr := 3
    ts_rd := 0
    skb_ptr := fun i => { id := 200 + i, seq := some 100 }
    fpga_ts := fun _ => { start_of_ts := 0, seconds_hi := 0, seconds := 0,
                          nanoseconds := 0, sequence_id := 5 }
    reenable_irq := true
    enable := true }

/-- C8 counterexample: the claim states the interrupt is re-enabled only
after the worker has freed ring space, never while the Timestamp Ring is
still full.  The worker checks `reenable_irq` unconditionally after its
loop (timestamp.c:190-193): on `fullRingState` it emits `enableIrq` even
though the resulting state's Timestamp Ring is still full (the next write
index would again collide with the read index). -/
theorem work_reenables_irq_while_ring_still_full :
    Ev.enableIrq ∈ (ra_net_tx_ts_work 4 4 fullRingState).2 ∧
    ((ra_net_tx_ts_work 4 4 fullRingState).1.ts_wr + 1) % 4
        = (ra_net_tx_ts_work 4 4 fullRingState).1.ts_rd := by
  constructor
  · decide
  · rfl

theorem stamp_tx_skb_no_irq_events (ts : TsRec) (skb : Skb) :
    Ev.enableIrq ∉ (ra_net_stamp_tx_skb ts skb).2.2 := by
  unfold ra_net_stamp_tx_skb
  cases h : skb.seq with
  | none => simp
  | some pseq =>
    by_cases h1 : ts.sequence_id = pseq
    · simp [h1]
    · by_cases h2 : pseq < ts.sequence_id <;> simp [h1, h2]

theorem workStep_no_irq_events (tsSZ skbSZ : Nat) (fpga : Nat → TsRec)
    (ptr : Nat → Skb) (q p : Nat) :
    Ev.enableIrq ∉ (workStep tsSZ skbSZ fpga ptr q p).2.2 := by
  have hshape : (workStep tsSZ skbSZ fpga ptr q p).2.2
      = Ev.readSkb ((p + 1) % skbSZ)
          :: (ra_net_stamp_tx_skb (fpga ((q + 1) % tsSZ))
                (ptr ((p + 1) % skbSZ))).2.2
          ++ (if (ra_net_stamp_tx_skb (fpga ((q + 1) % tsSZ))
                    (ptr ((p + 1) % skbSZ))).2.1
              then [Ev.freeSkb ((p + 1) % skbSZ)] else []) := rfl
  rw [hshape]
  intro hmem
  rcases List.mem_cons.mp hmem with h | h
  · exact Ev.noConfusion h
  rcases List.mem_append.mp h with h | h
  · exact stamp_tx_skb_no_irq_events _ _ h
  · cases hb : (ra_net_stamp_tx_skb (fpga ((q + 1) % tsSZ))
        (ptr ((p + 1) % skbSZ))).2.1 with
    | false => rw [hb] at h; simp at h
    | true => rw [hb] at h; simp at h

theorem workLoop_no_irq_events (tsSZ skbSZ : Nat) (fpga : Nat → TsRec)
    (ptr : Nat → Skb) (ts_wr skb_wr : Nat) :
    ∀ fuel q p,
      Ev.enableIrq
        ∉ (workLoop tsSZ skbSZ fpga ptr ts_wr skb_wr fuel q p).2.2 := by
  intro fuel
  induction fuel with
  | zero =>
    intro q p h
    simp only [workLoop, List.not_mem_nil] at h
  | succ n ih =>
    intro q p
    simp only [workLoop]
    split
    · intro h
      simp only [List.mem_append] at h
      rcases h with h | h
      · exact workStep_no_irq_events _ _ _ _ _ _ h
      · exact ih _ _ h
    · exact workStep_no_irq_events _ _ _ _ _ _

/-- C8 (amended): when the interrupt producer detects the full Timestamp
Ring it disables the source interrupt exactly once (a single `disableIrq`
event) and sets the re-enable-pending flag, leaving everything else
unchanged; the next Reconciliation Worker invocation then clears the flag
and emits `enableIrq` exactly once (and none when the flag was clear) —
but it does so unconditionally after its drain loop, not "only after
freeing space": re-enabling can happen while the Timestamp Ring is still
full (see the counterexample). -/
theorem irq_disable_and_work_reenable_protocol
    (tsSZ skbSZ recWords SOT fuel : Nat) (s : TxTs) (fifo : Nat → Nat) :
    ((s.ts_wr + 1) % tsSZ = s.ts_rd →
        ra_net_tx_ts_irq tsSZ recWords SOT s fifo fuel
          = some ({ s with reenable_irq := true }, [Ev.disableIrq])) ∧
    (ra_net_tx_ts_work tsSZ skbSZ s).2.count Ev.enableIrq
        = (if s.reenable_irq then 1 else 0) ∧
    (ra_net_tx_ts_work tsSZ skbSZ s).1.reenable_irq = false := by
  refine ⟨?_, ?_, ?_⟩
  · intro h
    simp [ra_net_tx_ts_irq, h]
  · by_cases he : s.ts_wr = s.ts_rd <;> by_cases hf : s.reenable_irq <;>
      simp [ra_net_tx_ts_work, he, hf, List.count_append,
        List.count_eq_zero.mpr
          (workLoop_no_irq_events tsSZ skbSZ s.fpga_ts s.skb_ptr s.ts_wr
            s.skb_wr (tsSZ + skbSZ + 2) s.ts_rd s.skb_rd)]
  · by_cases he : s.ts_wr = s.ts_rd <;> by_cases hf : s.reenable_irq <;>
      simp [ra_net_tx_ts_work, he, hf]

/-- C8 witness: the protocol theorem at the concrete full ring
`fullRingState`, whose next write index `(3 + 1) % 4 = 0` collides with the
read index, with the re-enable flag set. -/
theorem irq_disable_and_work_reenable_protocol_witness :
    ra_net_tx_ts_irq 4 4 1 fullRingState (fun _ => 0) 5
        = some ({ fullRingState with reenable_irq := true },
                [Ev.disableIrq]) ∧
    (ra_net_tx_ts_work 4 4 fullRingState).2.count Ev.enableIrq
        = (if fullRingState.reenable_irq then 1 else 0) ∧
    (ra_net_tx_ts_work 4 4 fullRingState).1.reenable_irq = false :=
  ⟨(irq_disable_and_work_reenable_protocol 4 4 4 1 5 fullRingState
      (fun _ => 0)).1 (by decide),
   (irq_disable_and_work_reenable_protocol 4 4 4 1 5 fullRingState
      (fun _ => 0)).2⟩

/-- The timestamping mode state: `priv->tx_ts.enable`, `priv->rx_ts_enable`
and the `RA_NET_PP_CONFIG_ENABLE_PTP_TIMESTAMPS` bit of the hardware
`RA_NET_PP_CONFIG` register. -/
structure CfgState where
  tx_enable : Bool
  rx_enable : Bool
  hw_ptp : Bool
deriving DecidableEq, Repr

/-- `ra_net_tx_ts_config` (timestamp.c:302-323): read the hardware feature
bit (`have`), compute the desired mode (`want`) as
`priv->tx_ts.enable || priv->rx_ts_enable`, return immediately when they
agree, and otherwise stop the transmit queue, write the feature bit, toggle
the timestamp interrupt enable accordingly and restart the queue. -/
def ra_net_tx_ts_config (s : CfgState) : CfgState × List Ev :=
  let want := s.tx_enable || s.rx_enable
  if s.hw_ptp = want then (s, [])
  else ({ s with hw_ptp := want },
        [Ev.stopQueue, Ev.writeHw want,
         if want then Ev.enableIrq else Ev.disableIrq,
         Ev.startQueue])

theorem tx_ts_config_result (s : CfgState) :
    (ra_net_tx_ts_config s).1
      = { s with hw_ptp := s.tx_enable || s.rx_enable } := by
  unfold ra_net_tx_ts_config
  by_cases h : s.hw_ptp = (s.tx_enable || s.rx_enable)
  · rw [if_pos h]
    cases s
    simp_all
  · rw [if_neg h]

/-- C9: the configuration-apply operation computes the desired mode as the
logical OR of `tx_enable` and `rx_enable` and performs the queue stop,
feature-bit write, interrupt toggle and queue restart (in that order)
exactly when the hardware bit differs from the desired mode, and nothing
otherwise; it never touches the two enable flags; applying it twice in a
row is a no-op the second time, and in particular enabling tx timestamping
twice performs the hardware mode change only on the first call. -/
theorem tx_ts_config_idempotent_applies_on_change (s : CfgState) :
    (ra_net_tx_ts_config s).2
        = (if s.hw_ptp = (s.tx_enable || s.rx_enable) then ([] : List Ev)
           else [Ev.stopQueue, Ev.writeHw (s.tx_enable || s.rx_enable),
                 if s.tx_enable || s.rx_enable then Ev.enableIrq
                 else Ev.disableIrq,
                 Ev.startQueue]) ∧
    (ra_net_tx_ts_config s).1.hw_ptp = (s.tx_enable || s.rx_enable) ∧
    (ra_net_tx_ts_config s).1.tx_enable = s.tx_enable ∧
    (ra_net_tx_ts_config s).1.rx_enable = s.rx_enable ∧
    ra_net_tx_ts_config (ra_net_tx_ts_config s).1
        = ((ra_net_tx_ts_config s).1, []) ∧
    (ra_net_tx_ts_config
        { (ra_net_tx_ts_config { s with tx_enable := true }).1 with
            tx_enable := true }).2 = [] := by
  refine ⟨?_, ?_, ?_, ?_, ?_, ?_⟩
  · by_cases h : s.hw_ptp = (s.tx_enable || s.rx_enable) <;>
      simp [ra_net_tx_ts_config, h]
  · rw [tx_ts_config_result]
  · rw [tx_ts_config_result]
  · rw [tx_ts_config_result]
  · rw [tx_ts_config_result]
    simp [ra_net_tx_ts_config]
  · rw [tx_ts_config_result]
    simp [ra_net_tx_ts_config]

/-- `struct hwtstamp_config` as read by `copy_from_user` (the `copy`
itself is an external collaborator assumed to succeed). -/
structure HwtstampConfig where
  flags : Nat
  tx_type : Nat
  rx_filter : Nat
deriving DecidableEq, Repr

/-- The `EINVAL` error number; the C function returns `-EINVAL`, modelled
as `some EINVAL`. -/
def EINVAL : Nat := 22

/-- `HWTSTAMP_TX_OFF` (uapi/linux/net_tstamp.h). -/
def HWTSTAMP_TX_OFF : Nat := 0

/-- `HWTSTAMP_TX_ON` (uapi/linux/net_tstamp.h). -/
def HWTSTAMP_TX_ON : Nat := 1

/-- `HWTSTAMP_FILTER_NONE` (uapi/linux/net_tstamp.h). -/
def HWTSTAMP_FILTER_NONE : Nat := 0

/-- `HWTSTAMP_FILTER_PTP_V2_L4_EVENT` (uapi/linux/net_tstamp.h). -/
def HWTSTAMP_FILTER_PTP_V2_L4_EVENT : Nat := 6

/-- `HWTSTAMP_FILTER_PTP_V2_L4_SYNC` (uapi/linux/net_tstamp.h). -/
def HWTSTAMP_FILTER_PTP_V2_L4_SYNC : Nat := 7

/-- `HWTSTAMP_FILTER_PTP_V2_L4_DELAY_REQ` (uapi/linux/net_tstamp.h). -/
def HWTSTAMP_FILTER_PTP_V2_L4_DELAY_REQ : Nat := 8

/-- `ra_net_hwtstamp_ioctl` (timestamp.c:331-397), with the two user-copy
steps (assumed to succeed) elided.  Returns the error number (`none` on
success), the resulting mode state, the hardware events, and the config
written back to the caller (`rx_filter` is rewritten to the `EVENT` filter
when a PTP v2 L4 filter was accepted).  Note the order of the two
switches: the `tx_type` switch already sets `priv->tx_ts.enable` and
applies the hardware configuration *before* `rx_filter` is validated, so
the `rx_filter` failure path keeps the tx-side mutation. -/
def ra_net_hwtstamp_ioctl (s : CfgState) (c : HwtstampConfig) :
    Option Nat × CfgState × List Ev × HwtstampConfig :=
  if c.flags ≠ 0 then (some EINVAL, s, [], c)
  else if c.tx_type = HWTSTAMP_TX_OFF ∨ c.tx_type = HWTSTAMP_TX_ON then
    let r1 := ra_net_tx_ts_config
      { s with tx_enable := c.tx_type == HWTSTAMP_TX_ON }
    if c.rx_filter = HWTSTAMP_FILTER_NONE then
      let r2 := ra_net_tx_ts_config { r1.1 with rx_enable := false }
      (none, r2.1, r1.2 ++ r2.2, c)
    else if c.rx_filter = HWTSTAMP_FILTER_PTP_V2_L4_EVENT
        ∨ c.rx_filter = HWTSTAMP_FILTER_PTP_V2_L4_SYNC
        ∨ c.rx_filter = HWTSTAMP_FILTER_PTP_V2_L4_DELAY_REQ then
      let r2 := ra_net_tx_ts_config { r1.1 with rx_enable := true }
      (none, r2.1, r1.2 ++ r2.2,
       { c with rx_filter := HWTSTAMP_FILTER_PTP_V2_L4_EVENT })
    else
      (some EINVAL, r1.1, r1.2, c)
  else (some EINVAL, s, [], c)

/-- C6 counterexample: the claim states that an invalid request mutates no
timestamping mode state.  A request with `flags = 0`, valid
`tx_type = HWTSTAMP_TX_ON` and invalid `rx_filter = 99`, issued on the
all-disabled state, is rejected with `EINVAL` — yet `tx_enable` has been
set, the hardware feature bit written and configuration events emitted,
because the code validates `rx_filter` only after applying the tx side. -/
theorem ioctl_invalid_rx_filter_mutates_tx_state :
    (ra_net_hwtstamp_ioctl
        { tx_enable := false, rx_enable := false, hw_ptp := false }
        { flags := 0, tx_type := 1, rx_filter := 99 }).1 = some EINVAL ∧
    (ra_net_hwtstamp_ioctl
        { tx_enable := false, rx_enable := false, hw_ptp := false }
        { flags := 0, tx_type := 1, rx_filter := 99 }).2.1
        = { tx_enable := true, rx_enable := false, hw_ptp := true } ∧
    (ra_net_hwtstamp_ioctl
        { tx_enable := false, rx_enable := false, hw_ptp := false }
        { flags := 0, tx_type := 1, rx_filter := 99 }).2.2.1
        = [Ev.stopQueue, Ev.writeHw true, Ev.enableIrq, Ev.startQueue] := by
  refine ⟨rfl, rfl, rfl⟩

/-- C6 (amended): a request with a non-zero reserved `flags` field or an
unsupported `tx_type` fails synchronously with `EINVAL` and mutates
nothing (state, events and returned config unchanged); a request with an
`rx_filter` outside the accepted set also fails with `EINVAL` and leaves
`rx_enable` unchanged, but only after the tx side has already been
applied: the final state is the tx-side-applied state (with the hardware
feature bit synchronized to the just-set `tx_enable`). -/
theorem ioctl_invalid_request_rejected (s : CfgState) (c : HwtstampConfig) :
    (c.flags ≠ 0 ∨ (c.tx_type ≠ HWTSTAMP_TX_OFF ∧ c.tx_type ≠ HWTSTAMP_TX_ON)
      → ra_net_hwtstamp_ioctl s c = (some EINVAL, s, [], c)) ∧
    (c.flags = 0 →
     (c.tx_type = HWTSTAMP_TX_OFF ∨ c.tx_type = HWTSTAMP_TX_ON) →
     c.rx_filter ≠ HWTSTAMP_FILTER_NONE →
     c.rx_filter ≠ HWTSTAMP_FILTER_PTP_V2_L4_EVENT →
     c.rx_filter ≠ HWTSTAMP_FILTER_PTP_V2_L4_SYNC →
     c.rx_filter ≠ HWTSTAMP_FILTER_PTP_V2_L4_DELAY_REQ →
       (ra_net_hwtstamp_ioctl s c).1 = some EINVAL ∧
       (ra_net_hwtstamp_ioctl s c).2.1.rx_enable = s.rx_enable ∧
       (ra_net_hwtstamp_ioctl s c).2.1
         = { s with
               tx_enable := c.tx_type == HWTSTAMP_TX_ON
               hw_ptp := (c.tx_type == HWTSTAMP_TX_ON) || s.rx_enable }) := by
  constructor
  · intro h
    by_cases hf : c.flags = 0
    · rcases h with h | ⟨h1, h2⟩
      · exact absurd hf h
      · simp [ra_net_hwtstamp_ioctl, hf, h1, h2]
    · simp [ra_net_hwtstamp_ioctl, hf]
  · intro hf htx h0 h6 h7 h8
    have hmain : ra_net_hwtstamp_ioctl s c
        = (some EINVAL,
           (ra_net_tx_ts_config
             { s with tx_enable := c.tx_type == HWTSTAMP_TX_ON }).1,
           (ra_net_tx_ts_config
             { s with tx_enable := c.tx_type == HWTSTAMP_TX_ON }).2,
           c) := by
      simp only [HWTSTAMP_FILTER_NONE] at h0
      simp only [HWTSTAMP_FILTER_PTP_V2_L4_EVENT] at h6
      simp only [HWTSTAMP_FILTER_PTP_V2_L4_SYNC] at h7
      simp only [HWTSTAMP_FILTER_PTP_V2_L4_DELAY_REQ] at h8
      simp [ra_net_hwtstamp_ioctl, hf, htx, h0, h6, h7, h8,
        HWTSTAMP_FILTER_NONE, HWTSTAMP_FILTER_PTP_V2_L4_EVENT,
        HWTSTAMP_FILTER_PTP_V2_L4_SYNC, HWTSTAMP_FILTER_PTP_V2_L4_DELAY_REQ]
    rw [hmain, tx_ts_config_result]
    exact ⟨rfl, rfl, rfl⟩

/-- A mode state with rx timestamping (and hence the hardware bit) on, used
by the C6 witness. -/
def cfgStateEx : CfgState :=
  { tx_enable := false, rx_enable := true, hw_ptp := true }

/-- A request with a non-zero reserved flags field. -/
def cfgBadFlags : HwtstampConfig := { flags := 5, tx_type := 1, rx_filter := 0 }

/-- A request with valid flags and tx_type but an rx_filter outside the
accepted set. -/
def cfgBadRx : HwtstampConfig := { flags := 0, tx_type := 1, rx_filter := 3 }

/-- C6 witness: the rejection theorem applied to a concrete bad-flags
request (nothing mutated) and a concrete bad-rx-filter request (rx_enable
unchanged, tx side already applied). -/
theorem ioctl_invalid_request_rejected_witness :
    ra_net_hwtstamp_ioctl cfgStateEx cfgBadFlags
        = (some EINVAL, cfgStateEx, [], cfgBadFlags) ∧
    ((ra_net_hwtstamp_ioctl cfgStateEx cfgBadRx).1 = some EINVAL ∧
     (ra_net_hwtstamp_ioctl cfgStateEx cfgBadRx).2.1.rx_enable
        = cfgStateEx.rx_enable ∧
     (ra_net_hwtstamp_ioctl cfgStateEx cfgBadRx).2.1
        = { cfgStateEx with
              tx_enable := cfgBadRx.tx_type == HWTSTAMP_TX_ON
              hw_ptp := (cfgBadRx.tx_type == HWTSTAMP_TX_ON)
                || cfgStateEx.rx_enable }) :=
  ⟨(ioctl_invalid_request_rejected cfgStateEx cfgBadFlags).1
      (Or.inl (by decide)),
   (ioctl_invalid_request_rejected cfgStateEx cfgBadRx).2 (by decide)
      (Or.inr (by decide)) (by decide) (by decide) (by decide) (by decide)⟩

/-- A received packet as the rx stamping path sees it: the
`skb_hwtstamps(skb)->hwtstamp` field plus an abstract stand-in for all of
the packet's other data, which the function must not touch. -/
structure RxSkb where
  hwtstamp : Int
  payload : Nat
deriving DecidableEq, Repr

/-- `ra_net_rx_skb_stamp` (timestamp.c:282-300): do nothing unless
`priv->rx_ts_enable` is set and the record's `start_of_ts` field equals
`RA_NET_TX_TIMESTAMP_START_OF_TS` (`SOT`); otherwise set the packet's
hardware timestamp to `(s64)ts->seconds * NSEC_PER_SEC + ts->nanoseconds`
(`ns_to_ktime` of an in-range value is the identity on the nanosecond
count).  The function touches no ring state, reflected in its signature. -/
def ra_net_rx_skb_stamp (SOT : Nat) (rx_ts_enable : Bool) (skb : RxSkb)
    (ts : TsRec) : RxSkb :=
  if rx_ts_enable = false then skb
  else if ts.start_of_ts ≠ SOT then skb
  else { skb with hwtstamp := tsToNs ts }

/-- C10: with rx timestamping disabled, or a record whose `start_of_ts`
differs from the marker, the packet is returned completely unchanged; with
rx timestamping enabled and a matching marker the packet's hardware
timestamp is set to `seconds * 1_000_000_000 + nanoseconds` and nothing
else changes (`payload` is preserved in every case); for in-range field
values (`seconds, nanoseconds < 2^32`) the computed value is a
non-negative signed 64-bit nanosecond count. -/
theorem rx_skb_stamp_frame_effect (SOT : Nat) (en : Bool) (skb : RxSkb)
    (ts : TsRec) :
    (en = false ∨ ts.start_of_ts ≠ SOT →
        ra_net_rx_skb_stamp SOT en skb ts = skb) ∧
    (en = true → ts.start_of_ts = SOT →
        ra_net_rx_skb_stamp SOT en skb ts
          = { skb with
                hwtstamp := (ts.seconds : Int) * 1000000000
                  + (ts.nanoseconds : Int) }) ∧
    (ra_net_rx_skb_stamp SOT en skb ts).payload = skb.payload ∧
    (ts.seconds < 2 ^ 32 → ts.nanoseconds < 2 ^ 32 →
        0 ≤ tsToNs ts ∧ tsToNs ts < 2 ^ 63) := by
  refine ⟨?_, ?_, ?_, ?_⟩
  · intro h
    cases en with
    | false => simp [ra_net_rx_skb_stamp]
    | true =>
      rcases h with h | h
      · exact absurd h (by simp)
      · simp [ra_net_rx_skb_stamp, h]
  · intro he hts
    simp [ra_net_rx_skb_stamp, he, hts, tsToNs, NSEC_PER_SEC]
  · by_cases h1 : en = false
    · simp [ra_net_rx_skb_stamp, h1]
    · by_cases h2 : ts.start_of_ts ≠ SOT <;>
        simp [ra_net_rx_skb_stamp, h1, h2]
  · intro h1 h2
    unfold tsToNs NSEC_PER_SEC
    have hs : (ts.seconds : Int) < 2 ^ 32 := by exact_mod_cast h1
    have hn : (ts.nanoseconds : Int) < 2 ^ 32 := by exact_mod_cast h2
    have hs0 : (0 : Int) ≤ (ts.seconds : Int) := Int.natCast_nonneg _
    have hn0 : (0 : Int) ≤ (ts.nanoseconds : Int) := Int.natCast_nonneg _
    constructor
    · positivity
    · nlinarith [hs, hn, hs0, hn0]

/-- Concrete timestamp record exercised by the C10 witness (marker value
5, 3 seconds, 7 nanoseconds). -/
def tsRecEx : TsRec :=
  { start_of_ts := 5, seconds_hi := 0, seconds := 3, nanoseconds := 7,
    sequence_id := 0 }

/-- Concrete received packet exercised by the C10 witness. -/
def rxSkbEx : RxSkb := { hwtstamp := 0, payload := 42 }

/-- C10 witness: the frame-effect theorem applied with rx timestamping
enabled and a matching marker (timestamp attached), disabled (unchanged),
and with the in-range bound discharged. -/
theorem rx_skb_stamp_frame_effect_witness :
    ra_net_rx_skb_stamp 5 true rxSkbEx tsRecEx
        = { rxSkbEx with
              hwtstamp := (tsRecEx.seconds : Int) * 1000000000
                + (tsRecEx.nanoseconds : Int) } ∧
    ra_net_rx_skb_stamp 5 false rxSkbEx tsRecEx = rxSkbEx ∧
    (0 ≤ tsToNs tsRecEx ∧ tsToNs tsRecEx < 2 ^ 63) :=
  ⟨(rx_skb_stamp_frame_effect 5 true rxSkbEx tsRecEx).2.1 rfl (by decide),
   (rx_skb_stamp_frame_effect 5 false rxSkbEx tsRecEx).1 (Or.inl rfl),
   (rx_skb_stamp_frame_effect 5 true rxSkbEx tsRecEx).2.2.2 (by decide)
      (by decide)⟩
